import Mathlib

/-!
Shallow embedding of `envParse` and its helpers from `src/structured.ts`
(source file `src/unnamed/part_001`) and the error model from
`src/errors.ts`, together with theorems settling the frozen claims.

Modelling conventions:
* JavaScript runtime values produced at leaves are modelled by `JSValue`;
  `JSValue.undef` is the JS value `undefined`.  Reading an absent object
  property yields `undefined`, so an optional field `default?` is modelled
  as `Option JSValue` and read through `jsGet` (absent and explicitly
  `undefined` both read as `undef`, exactly as `property.default` does).
* The environment map `Record<string, string | undefined>` is a list of
  pairs; `lookupEnv` models `envVars[name]` (a key bound to `undefined`
  is indistinguishable from an absent key under `=== undefined`, so both
  are modelled by an absent key).
* A validator adapter's capability descriptor `format["~standard"]` is
  `Option StandardProps`: `none` models an adapter that does not expose
  a Standard Schema descriptor at all (then
  `standardProps?.validate(envValue)` evaluates to `undefined` and the
  non-compliance issue is recorded).  `StandardProps.vendor` is
  `Option String` (`none` when `typeof vendor` is not `"string"`);
  `StandardProps.validate` is `Option (String → ValidateOutcome)`,
  `none` modelling a descriptor that lacks a `validate` function — in
  that case the source's `standardProps?.validate(envValue)` (optional
  chaining guards only `standardProps`) calls `undefined` and the call
  crashes with an uncaught `TypeError`.  The result of calling a present
  `validate` is `ValidateOutcome`: a success value (`issues` absent), a
  truthy `issues` array (possibly empty, as in JS where `[]` is truthy),
  a `Promise`, or a nullish result.
* The JS `Set` of vendors is an insertion-ordered duplicate-free list;
  `Set.add` is `addVendor`.
* Throwing is modelled with `Except`: the helpers raise a `LeafFault`
  (the `AsyncValidationError` throw or the `TypeError` crash), and
  `envParse` returns `Except ParseError JSValue` where
  `ParseError.validation` carries the `EnvValidationError` payload
  (issues, vendor label), `ParseError.asyncValidation` the
  `AsyncValidationError`, and `ParseError.typeError` the uncaught
  `TypeError` escaping the call.
-/

/-- JavaScript runtime values appearing as leaf values and outputs. -/
inductive JSValue where
  | undef : JSValue
  | str : String → JSValue
  | num : Int → JSValue
  | bool : Bool → JSValue
  | obj : List (String × JSValue) → JSValue

/-- Test `v !== undefined` (constructor check only). -/
def JSValue.isUndef : JSValue → Bool
  | .undef => true
  | _ => false

/-- Reading a possibly-absent JS object property: absent reads as `undefined`. -/
def jsGet : Option JSValue → JSValue
  | none => JSValue.undef
  | some v => v

/-- Issue of `StandardSchemaV1`: a message and an optional path of segments. -/
structure Issue where
  message : String
  path : Option (List String)
deriving DecidableEq, Repr

/-- The possible results of calling an adapter's `validate(rawString)`:
a success object (no `issues` key), an object with a (truthy, possibly
empty) `issues` array, a `Promise`, or a nullish value. -/
inductive ValidateOutcome where
  | ok : JSValue → ValidateOutcome
  | failed : List Issue → ValidateOutcome
  | promise : ValidateOutcome
  | nullish : ValidateOutcome

/-- The `~standard` capability descriptor of an adapter: a vendor name
(when it is a string) and the `validate` member (`none` when the
descriptor lacks a `validate` function, in which case calling it
throws a `TypeError`). -/
structure StandardProps where
  vendor : Option String
  validate : Option (String → ValidateOutcome)

/-- Structure `ConfigProperty` of `src/structured.ts`: `format` is the adapter's
`~standard` descriptor (`none` when the adapter exposes none), `default`
is the optional default (post-validation) value, `env` the environment
variable name, `optional` the optional flag (absent reads as `false`). -/
structure ConfigProperty where
  format : Option StandardProps
  default : Option JSValue
  env : String
  optional : Bool

/-- A node of a `ConfigDefinition`: either a leaf `ConfigProperty`
(the structural `isConfigProperty` test made explicit as a tag) or a
nested definition object. -/
inductive ConfigNode where
  | leaf : ConfigProperty → ConfigNode
  | group : List (String × ConfigNode) → ConfigNode

/-- The environment map. -/
def Env : Type := List (String × String)

/-- Lookup `envVars[name]` on the environment map. -/
def lookupEnv (envVars : Env) (name : String) : Option String :=
  List.lookup name envVars

/-- Operation `vendors.add(v)` on the insertion-ordered vendor set. -/
def addVendor (vendors : List String) (v : String) : List String :=
  if v ∈ vendors then vendors else vendors ++ [v]

/-- Lines 117-122 of `validateProperty`: record the adapter's vendor in
the call-wide vendor set when the descriptor exposes a string vendor. -/
def recordVendor (property : ConfigProperty) (vendors : List String) : List String :=
  match property.format with
  | some standardProps =>
    match standardProps.vendor with
    | some v => addVendor vendors v
    | none => vendors
  | none => vendors

/-- The required-and-missing issue pushed by `validateProperty`. -/
def missingIssue (envName : String) : Issue :=
  ⟨"Required environment variable " ++ envName ++ " is not set and no default provided",
   some [envName]⟩

/-- The non-compliant-validator issue pushed by `validateProperty`. -/
def nonCompliantIssue (envName : String) : Issue :=
  ⟨"Validator for " ++ envName ++ " is not Standard Schema compliant",
   some [envName]⟩

/-- The per-issue rescoping applied to adapter-reported issues: the
environment variable name is prepended to the path (or becomes the whole
path when the issue has none) and prefixed to the message. -/
def scopeIssue (envName : String) (issue : Issue) : Issue :=
  ⟨envName ++ ": " ++ issue.message,
   some (match issue.path with
         | some p => envName :: p
         | none => [envName])⟩

/-- The two faults leaf resolution can throw out of the whole call:
the `AsyncValidationError` raised on a `Promise`-returning `validate`
(lines 152-156), and the uncaught JS `TypeError` raised when a present
`~standard` descriptor lacks a `validate` function (the call
`standardProps?.validate(envValue)` at line 143 guards only
`standardProps`). -/
inductive LeafFault where
  | async : LeafFault
  | typeError : LeafFault

/-- The body of `validateProperty` after the vendor was recorded
(lines 124-170): resolve one leaf against the environment, returning its
issue list and its value (`undef` when the leaf produced no value), or
raising a `LeafFault`. -/
def resolveLeaf (property : ConfigProperty) (envVars : Env) :
    Except LeafFault (List Issue × JSValue) :=
  match lookupEnv envVars property.env with
  | none =>
    if !(jsGet property.default).isUndef then
      .ok ([], jsGet property.default)
    else if property.optional then
      .ok ([], JSValue.undef)
    else
      .ok ([missingIssue property.env], JSValue.undef)
  | some envValue =>
    match property.format with
    | none => .ok ([nonCompliantIssue property.env], JSValue.undef)
    | some standardProps =>
      match standardProps.validate with
      | none => .error LeafFault.typeError
      | some validate =>
        match validate envValue with
        | .nullish => .ok ([nonCompliantIssue property.env], JSValue.undef)
        | .promise => .error LeafFault.async
        | .failed rawIssues => .ok (rawIssues.map (scopeIssue property.env), JSValue.undef)
        | .ok v => .ok ([], v)

/-- Function `validateProperty` of `src/structured.ts`: records the vendor in the
call-wide set, then resolves the leaf; returns the updated vendor set,
the property's issues and its value. -/
def validateProperty (property : ConfigProperty) (envVars : Env)
    (vendors : List String) :
    Except LeafFault (List String × List Issue × JSValue) :=
  match resolveLeaf property envVars with
  | .error e => .error e
  | .ok (propertyIssues, value) => .ok (recordVendor property vendors, propertyIssues, value)

/-- Function `handleConfigProperty` of `src/structured.ts`: validate one leaf;
on issues, append them to the call-wide issue list; otherwise write the
value at `key` when it is defined or the property is not optional. -/
def handleConfigProperty (key : String) (property : ConfigProperty) (envVars : Env)
    (vendors : List String) (issues : List Issue) (target : List (String × JSValue)) :
    Except LeafFault (List String × List Issue × List (String × JSValue)) :=
  match validateProperty property envVars vendors with
  | .error e => .error e
  | .ok (vendors2, propertyIssues, validatedValue) =>
    if propertyIssues.length > 0 then
      .ok (vendors2, issues ++ propertyIssues, target)
    else if !validatedValue.isUndef || !property.optional then
      .ok (vendors2, issues, target ++ [(key, validatedValue)])
    else
      .ok (vendors2, issues, target)

/-- Function `processConfig` of `src/structured.ts`: walk the definition in key
order; leaves go through `handleConfigProperty`, nested definitions get
a fresh object at their key which the recursive call fills. -/
def processConfig (configObj : List (String × ConfigNode)) (envVars : Env)
    (vendors : List String) (issues : List Issue) (target : List (String × JSValue)) :
    Except LeafFault (List String × List Issue × List (String × JSValue)) :=
  match configObj with
  | [] => .ok (vendors, issues, target)
  | (key, ConfigNode.leaf property) :: rest =>
    match handleConfigProperty key property envVars vendors issues target with
    | .error e => .error e
    | .ok (v, i, t) => processConfig rest envVars v i t
  | (key, ConfigNode.group sub) :: rest =>
    match processConfig sub envVars vendors issues [] with
    | .error e => .error e
    | .ok (v, i, subTarget) =>
      processConfig rest envVars v i (target ++ [(key, JSValue.obj subTarget)])
termination_by sizeOf configObj
decreasing_by all_goals simp_wf <;> omega

/-- The vendor label computed in `envParse` before throwing
`EnvValidationError`. -/
def vendorLabel (vendors : List String) : String :=
  if vendors.length = 0 then "unknown"
  else if vendors.length = 1 then vendors.headD ""
  else "mixed(" ++ String.intercalate "," vendors ++ ")"

/-- The ways an `envParse` call can throw: `EnvValidationError`
(all collected issues plus the vendor label), `AsyncValidationError`,
or an uncaught `TypeError` from calling a missing `validate` member. -/
inductive ParseError where
  | validation : List Issue → String → ParseError
  | asyncValidation : ParseError
  | typeError : ParseError

/-- Function `envParse` of `src/structured.ts`: process the whole definition with
fresh accumulators; throw an aggregated `EnvValidationError` when any
issues were collected, otherwise return the assembled object. -/
def envParse (env : Env) (config : List (String × ConfigNode)) :
    Except ParseError JSValue :=
  match processConfig config env [] [] [] with
  | .error LeafFault.async => .error ParseError.asyncValidation
  | .error LeafFault.typeError => .error ParseError.typeError
  | .ok (vendors, issues, result) =>
    if issues.length > 0 then
      .error (ParseError.validation issues (vendorLabel vendors))
    else
      .ok (JSValue.obj result)

/-! ## Traversal-order characterizations

Spec-level recursions over the definition tree describing, per leaf in
depth-first key order, the issues, vendor names and output contributions
that one `envParse` call collects.  They are proved equal to what
`processConfig` accumulates. -/

/-- The issue list one leaf contributes (empty for the unreachable
fault cases, in which the whole call aborts instead). -/
def leafIssueList (property : ConfigProperty) (envVars : Env) : List Issue :=
  match resolveLeaf property envVars with
  | .error _ => []
  | .ok (issues, _) => issues

/-- The 0- or 1-element list of vendor names one leaf's adapter exposes. -/
def propVendorList (property : ConfigProperty) : List String :=
  match property.format with
  | some standardProps =>
    match standardProps.vendor with
    | some v => [v]
    | none => []
  | none => []

/-- The 0- or 1-entry contribution one leaf makes to its enclosing
output object. -/
def leafContribution (key : String) (property : ConfigProperty) (envVars : Env) :
    List (String × JSValue) :=
  match resolveLeaf property envVars with
  | .error _ => []
  | .ok (issues, value) =>
    if issues.length > 0 then []
    else if !value.isUndef || !property.optional then [(key, value)]
    else []

/-- Per-leaf issue lists of a definition, in depth-first key order. -/
def configIssueLists (envVars : Env) : List (String × ConfigNode) → List (List Issue)
  | [] => []
  | (_, ConfigNode.leaf p) :: rest => leafIssueList p envVars :: configIssueLists envVars rest
  | (_, ConfigNode.group sub) :: rest =>
    configIssueLists envVars sub ++ configIssueLists envVars rest
termination_by cfg => sizeOf cfg
decreasing_by all_goals simp_wf <;> omega

/-- Vendor names of every leaf of a definition, in depth-first key
order, duplicates included. -/
def configVendorList : List (String × ConfigNode) → List String
  | [] => []
  | (_, ConfigNode.leaf p) :: rest => propVendorList p ++ configVendorList rest
  | (_, ConfigNode.group sub) :: rest => configVendorList sub ++ configVendorList rest
termination_by cfg => sizeOf cfg
decreasing_by all_goals simp_wf <;> omega

/-- The output object a definition assembles, in depth-first key order
(group keys always materialized, leaf contributions as above). -/
def configTarget (envVars : Env) : List (String × ConfigNode) → List (String × JSValue)
  | [] => []
  | (key, ConfigNode.leaf p) :: rest =>
    leafContribution key p envVars ++ configTarget envVars rest
  | (key, ConfigNode.group sub) :: rest =>
    (key, JSValue.obj (configTarget envVars sub)) :: configTarget envVars rest
termination_by cfg => sizeOf cfg
decreasing_by all_goals simp_wf <;> omega

/-- Unfolding: `recordVendor` is a fold of `addVendor` over the leaf's vendor list. -/
theorem recordVendor_eq_foldl (property : ConfigProperty) (vendors : List String) :
    recordVendor property vendors =
      List.foldl addVendor vendors (propVendorList property) := by
  unfold recordVendor propVendorList
  cases property.format with
  | none => rfl
  | some sp =>
    obtain ⟨vd, f⟩ := sp
    cases vd <;> rfl

/-- Success case: `handleConfigProperty` succeeds exactly when the leaf resolves
without an async abort, and then extends the three accumulators by the
leaf's vendor, issue and output contributions. -/
theorem handleConfigProperty_ok (key : String) (property : ConfigProperty)
    (envVars : Env) (vendors : List String) (issues : List Issue)
    (target : List (String × JSValue)) (v : List String) (i : List Issue)
    (t : List (String × JSValue)) :
    handleConfigProperty key property envVars vendors issues target = .ok (v, i, t) →
      v = List.foldl addVendor vendors (propVendorList property) ∧
      i = issues ++ leafIssueList property envVars ∧
      t = target ++ leafContribution key property envVars := by
  unfold handleConfigProperty validateProperty leafIssueList leafContribution
  cases hres : resolveLeaf property envVars with
  | error e => intro h; exact absurd h (by simp)
  | ok r =>
    obtain ⟨propertyIssues, value⟩ := r
    simp only []
    by_cases hlen : propertyIssues.length > 0
    · simp only [if_pos hlen, Except.ok.injEq, if_pos hlen]
      intro h
      obtain ⟨hv, hi, ht⟩ := Prod.mk.injEq .. ▸ h
      refine ⟨?_, ?_, ?_⟩
      · rw [← hv, recordVendor_eq_foldl]
      · simp_all
      · simp_all
    · simp only [if_neg hlen]
      by_cases hw : (!value.isUndef || !property.optional) = true
      · simp only [if_pos hw, Except.ok.injEq]
        intro h
        obtain ⟨hv, hi, ht⟩ := Prod.mk.injEq .. ▸ h
        refine ⟨?_, ?_, ?_⟩
        · rw [← hv, recordVendor_eq_foldl]
        · simp_all
        · simp_all
      · simp only [if_neg hw, Except.ok.injEq]
        intro h
        obtain ⟨hv, hi, ht⟩ := Prod.mk.injEq .. ▸ h
        refine ⟨?_, ?_, ?_⟩
        · rw [← hv, recordVendor_eq_foldl]
        · simp_all
        · simp_all

/-- Abort case: `handleConfigProperty` aborts exactly when the leaf's `validate`
returned a `Promise`. -/
theorem handleConfigProperty_error (key : String) (property : ConfigProperty)
    (envVars : Env) (vendors : List String) (issues : List Issue)
    (target : List (String × JSValue)) (e : LeafFault) :
    handleConfigProperty key property envVars vendors issues target = .error e ↔
      resolveLeaf property envVars = .error e := by
  unfold handleConfigProperty validateProperty
  cases hres : resolveLeaf property envVars with
  | error e2 => simp
  | ok r =>
    obtain ⟨propertyIssues, value⟩ := r
    simp only []
    constructor
    · intro h
      by_cases hlen : propertyIssues.length > 0
      · simp [if_pos hlen] at h
      · by_cases hw : (!value.isUndef || !property.optional) = true <;> simp_all
    · intro h; exact absurd h (by simp)

/-- Main characterization of the walk: when `processConfig` completes
without an async abort, the vendor set is the incoming set extended by
every leaf's vendor in traversal order, the issue list is the incoming
list followed by every leaf's issues in traversal order, and the output
is the incoming object followed by the per-key contributions in key
order. -/
theorem processConfig_ok (configObj : List (String × ConfigNode)) (envVars : Env)
    (vendors : List String) (issues : List Issue) (target : List (String × JSValue)) :
    ∀ v i t, processConfig configObj envVars vendors issues target = .ok (v, i, t) →
      v = List.foldl addVendor vendors (configVendorList configObj) ∧
      i = issues ++ (configIssueLists envVars configObj).flatten ∧
      t = target ++ configTarget envVars configObj := by
  induction configObj, envVars, vendors, issues, target using processConfig.induct with
  | case1 envVars vendors issues target =>
    intro v i t h
    simp only [processConfig, Except.ok.injEq, Prod.mk.injEq] at h
    obtain ⟨hv, hi, ht⟩ := h
    simp [configVendorList, configIssueLists, configTarget, ← hv, ← hi, ← ht]
  | case2 envVars vendors issues target key property rest e hhandle =>
    intro v i t h
    simp only [processConfig, hhandle] at h
    simp at h
  | case3 envVars vendors issues target key property rest v1 i1 t1 hhandle ih =>
    intro v i t h
    simp only [processConfig, hhandle] at h
    obtain ⟨hv1, hi1, ht1⟩ := handleConfigProperty_ok _ _ _ _ _ _ _ _ _ hhandle
    obtain ⟨hv, hi, ht⟩ := ih v i t h
    subst hv1 hi1 ht1
    simp [configVendorList, configIssueLists, configTarget, List.foldl_append, hv, hi, ht,
      leafIssueList, leafContribution]
  | case4 envVars vendors issues target key sub rest e hsub ihsub =>
    intro v i t h
    simp only [processConfig, hsub] at h
    simp at h
  | case5 envVars vendors issues target key sub rest v1 i1 t1 hsub ihsub ihrest =>
    intro v i t h
    simp only [processConfig, hsub] at h
    obtain ⟨hv1, hi1, ht1⟩ := ihsub v1 i1 t1 hsub
    obtain ⟨hv, hi, ht⟩ := ihrest v i t h
    subst hv1 hi1 ht1
    simp [configVendorList, configIssueLists, configTarget, List.foldl_append, hv, hi, ht]

/-- Walking a concatenation is walking the first part, then the second
with the accumulators the first part produced. -/
theorem processConfig_append (ys xs : List (String × ConfigNode)) (envVars : Env)
    (vendors : List String) (issues : List Issue) (target : List (String × JSValue)) :
    processConfig (xs ++ ys) envVars vendors issues target =
      match processConfig xs envVars vendors issues target with
      | .error e => .error e
      | .ok (v, i, t) => processConfig ys envVars v i t := by
  induction xs, envVars, vendors, issues, target using processConfig.induct with
  | case1 envVars vendors issues target => simp [processConfig]
  | case2 envVars vendors issues target key property rest e hhandle =>
    simp [processConfig, hhandle]
  | case3 envVars vendors issues target key property rest v1 i1 t1 hhandle ih =>
    simp only [List.cons_append, processConfig, hhandle]
    exact ih
  | case4 envVars vendors issues target key sub rest e hsub ihsub =>
    simp [processConfig, hsub]
  | case5 envVars vendors issues target key sub rest v1 i1 t1 hsub ihsub ihrest =>
    simp only [List.cons_append, processConfig, hsub]
    exact ihrest

/-- Lemma: `configIssueLists` distributes over concatenation. -/
theorem configIssueLists_append (envVars : Env) (xs ys : List (String × ConfigNode)) :
    configIssueLists envVars (xs ++ ys) =
      configIssueLists envVars xs ++ configIssueLists envVars ys := by
  induction xs with
  | nil => simp [configIssueLists]
  | cons hd tl ih =>
    obtain ⟨key, node⟩ := hd
    cases node with
    | leaf p => simp [configIssueLists, ih]
    | group sub => simp [configIssueLists, ih]

/-- Lemma: `configVendorList` distributes over concatenation. -/
theorem configVendorList_append (xs ys : List (String × ConfigNode)) :
    configVendorList (xs ++ ys) = configVendorList xs ++ configVendorList ys := by
  induction xs with
  | nil => simp [configVendorList]
  | cons hd tl ih =>
    obtain ⟨key, node⟩ := hd
    cases node with
    | leaf p => simp [configVendorList, ih]
    | group sub => simp [configVendorList, ih]

/-- Lemma: `configTarget` distributes over concatenation. -/
theorem configTarget_append (envVars : Env) (xs ys : List (String × ConfigNode)) :
    configTarget envVars (xs ++ ys) =
      configTarget envVars xs ++ configTarget envVars ys := by
  induction xs with
  | nil => simp [configTarget]
  | cons hd tl ih =>
    obtain ⟨key, node⟩ := hd
    cases node with
    | leaf p => simp [configTarget, ih]
    | group sub => simp [configTarget, ih]

/-- Membership in the vendor set after one `add`. -/
theorem mem_addVendor {acc : List String} {a x : String} :
    x ∈ addVendor acc a ↔ x ∈ acc ∨ x = a := by
  unfold addVendor
  by_cases h : a ∈ acc
  · simp only [if_pos h]
    constructor
    · exact Or.inl
    · rintro (hx | rfl)
      · exact hx
      · exact h
  · simp [if_neg h]

/-- Membership in the vendor set after adding a whole list. -/
theorem mem_foldl_addVendor (l : List String) (acc : List String) (x : String) :
    x ∈ List.foldl addVendor acc l ↔ x ∈ acc ∨ x ∈ l := by
  induction l generalizing acc with
  | nil => simp
  | cons a as ih =>
    simp only [List.foldl_cons, ih, mem_addVendor, List.mem_cons]
    tauto

/-- One `add` keeps the vendor set duplicate-free. -/
theorem nodup_addVendor {acc : List String} (h : acc.Nodup) (a : String) :
    (addVendor acc a).Nodup := by
  unfold addVendor
  by_cases hm : a ∈ acc
  · simpa [if_pos hm]
  · simp [if_neg hm, List.nodup_append, h, hm]

/-- Adding a whole list keeps the vendor set duplicate-free. -/
theorem nodup_foldl_addVendor (l : List String) {acc : List String} (h : acc.Nodup) :
    (List.foldl addVendor acc l).Nodup := by
  induction l generalizing acc with
  | nil => exact h
  | cons a as ih => exact ih (nodup_addVendor h a)

/-- When `envParse` throws `EnvValidationError`, its issues are exactly
the traversal-order concatenation of every leaf's issues (non-empty) and
its label is the vendor label of the accumulated vendor set. -/
theorem envParse_error_validation (env : Env) (config : List (String × ConfigNode))
    (is : List Issue) (label : String) :
    envParse env config = .error (ParseError.validation is label) →
      is = (configIssueLists env config).flatten ∧ is ≠ [] ∧
      label = vendorLabel (List.foldl addVendor [] (configVendorList config)) := by
  unfold envParse
  cases hp : processConfig config env [] [] [] with
  | error e => cases e <;> simp
  | ok r =>
    obtain ⟨v, i, t⟩ := r
    obtain ⟨hv, hi, ht⟩ := processConfig_ok config env [] [] [] v i t hp
    by_cases hlen : i.length > 0
    · simp only [if_pos hlen, Except.error.injEq, ParseError.validation.injEq]
      rintro ⟨rfl, rfl⟩
      refine ⟨by simpa using hi, ?_, by rw [hv]⟩
      intro hnil
      rw [hnil] at hlen
      simp at hlen
    · simp [if_neg hlen]

/-- When `envParse` succeeds, no leaf produced an issue and the result
is the object described by `configTarget`. -/
theorem envParse_ok (env : Env) (config : List (String × ConfigNode)) (r : JSValue) :
    envParse env config = .ok r →
      (configIssueLists env config).flatten = [] ∧
      r = JSValue.obj (configTarget env config) := by
  unfold envParse
  cases hp : processConfig config env [] [] [] with
  | error e => cases e <;> simp
  | ok res =>
    obtain ⟨v, i, t⟩ := res
    obtain ⟨hv, hi, ht⟩ := processConfig_ok config env [] [] [] v i t hp
    by_cases hlen : i.length > 0
    · simp [if_pos hlen]
    · simp only [if_neg hlen, Except.ok.injEq]
      rintro rfl
      have hinil : i = [] := List.length_eq_zero.mp (by omega)
      rw [hinil] at hi
      refine ⟨?_, by rw [ht]; simp⟩
      have := hi.symm
      simpa using this

/-! ## Sample adapters and fixtures for concrete instances -/

/-- A sample adapter parsing the string "3000" to the number 3000 and
rejecting every other string with one issue. -/
def numericAdapter : StandardProps :=
  ⟨some "arktype", some (fun s =>
    if s = "3000" then ValidateOutcome.ok (JSValue.num 3000)
    else ValidateOutcome.failed [⟨"must be a numeric string", none⟩])⟩

/-- A sample adapter accepting every string unchanged. -/
def stringAdapter : StandardProps :=
  ⟨some "zod", some (fun s => ValidateOutcome.ok (JSValue.str s))⟩

/-- A sample adapter reporting two issues for every input. -/
def twoIssueAdapter : StandardProps :=
  ⟨some "valibot", some (fun _ =>
    ValidateOutcome.failed [⟨"bad1", none⟩, ⟨"bad2", some ["field"]⟩])⟩

/-- A sample adapter whose `validate` returns a `Promise`. -/
def asyncAdapter : StandardProps :=
  ⟨some "zod", some (fun _ => ValidateOutcome.promise)⟩

/-- The number of leaves of one call that contributed at least one
issue, in the sense of claim C1's "independently failing leaves". -/
def failingLeafCount (envVars : Env) (cfg : List (String × ConfigNode)) : Nat :=
  ((configIssueLists envVars cfg).filter (fun l => !l.isEmpty)).length

/-- When every per-leaf issue list has at most one element, the total
issue count equals the number of failing leaves. -/
theorem flatten_length_eq_failing_count (ls : List (List Issue))
    (h : ∀ l ∈ ls, l.length ≤ 1) :
    ls.flatten.length = (ls.filter (fun l => !l.isEmpty)).length := by
  induction ls with
  | nil => simp
  | cons a as ih =>
    have ha := h a (by simp)
    have ihh := ih (fun l hl => h l (by simp [hl]))
    cases a with
    | nil => simpa using ihh
    | cons x xs =>
      have hxs : xs = [] := by
        cases xs with
        | nil => rfl
        | cons y ys => simp at ha
      subst hxs
      simp [List.filter_cons, ihh]


/-- A flattened list is empty only when every member list is empty. -/
theorem flatten_nil_members (ls : List (List Issue)) (h : ls.flatten = []) :
    ∀ l ∈ ls, l = [] := by
  induction ls with
  | nil => simp
  | cons a as ih =>
    simp only [List.flatten_cons, List.append_eq_nil] at h
    intro l hl
    rcases List.mem_cons.mp hl with rfl | hmem
    · exact h.1
    · exact ih h.2 l hmem
/-! ## Claims -/

/-- C1 counterexample: one failing leaf whose adapter reports two
issues yields a `ValidationError` with two issues, not exactly one
issue per failing leaf: `envParse` with one leaf (`N = 1`) throws an
error whose issues list has length 2. -/
theorem c1_counterexample :
    failingLeafCount [("PORT", "x")]
        [("port", ConfigNode.leaf ⟨some twoIssueAdapter, none, "PORT", false⟩)] = 1 ∧
    envParse [("PORT", "x")]
        [("port", ConfigNode.leaf ⟨some twoIssueAdapter, none, "PORT", false⟩)] =
      .error (ParseError.validation
        [⟨"PORT: bad1", some ["PORT"]⟩, ⟨"PORT: bad2", some ["PORT", "field"]⟩]
        "valibot") := by
  constructor
  · simp [failingLeafCount, configIssueLists, leafIssueList, resolveLeaf,
      lookupEnv, twoIssueAdapter, scopeIssue]
  · simp [envParse, processConfig, handleConfigProperty, validateProperty, resolveLeaf,
      lookupEnv, recordVendor, addVendor, twoIssueAdapter, scopeIssue, vendorLabel]

/-- C1 (amended): whenever `envParse` throws a `ValidationError`, that
single error's issues list is the traversal-order (definition-key
order, depth-first) concatenation of every failing leaf's issues — it
is non-empty, contains exactly `N` issues when each of the `N` failing
leaves reports a single issue — and whenever `envParse` returns, no
leaf produced an issue and the result is the complete assembled object,
never a partial one. -/
theorem c1_issue_aggregation (env : Env) (config : List (String × ConfigNode)) :
    (∀ is label, envParse env config = .error (ParseError.validation is label) →
      is = (configIssueLists env config).flatten ∧ is ≠ [] ∧
      ((∀ l ∈ configIssueLists env config, l.length ≤ 1) →
        is.length = failingLeafCount env config)) ∧
    (∀ r, envParse env config = .ok r →
      (∀ l ∈ configIssueLists env config, l = []) ∧
      r = JSValue.obj (configTarget env config)) := by
  constructor
  · intro is label h
    obtain ⟨his, hne, hlabel⟩ := envParse_error_validation env config is label h
    refine ⟨his, hne, ?_⟩
    intro hone
    rw [his]
    exact flatten_length_eq_failing_count _ hone
  · intro r h
    obtain ⟨hflat, hr⟩ := envParse_ok env config r h
    exact ⟨flatten_nil_members _ hflat, hr⟩

/-- C1 witness: two leaves with missing required variables produce one
error with both issues in definition-key order. -/
theorem c1_issue_aggregation_witness :
    [missingIssue "A", missingIssue "B"] =
      (configIssueLists []
        [("a", ConfigNode.leaf ⟨some numericAdapter, none, "A", false⟩),
         ("b", ConfigNode.leaf ⟨some stringAdapter, none, "B", false⟩)]).flatten ∧
    [missingIssue "A", missingIssue "B"] ≠ [] ∧
    ((∀ l ∈ configIssueLists []
        [("a", ConfigNode.leaf ⟨some numericAdapter, none, "A", false⟩),
         ("b", ConfigNode.leaf ⟨some stringAdapter, none, "B", false⟩)], l.length ≤ 1) →
      ([missingIssue "A", missingIssue "B"] : List Issue).length =
        failingLeafCount []
          [("a", ConfigNode.leaf ⟨some numericAdapter, none, "A", false⟩),
           ("b", ConfigNode.leaf ⟨some stringAdapter, none, "B", false⟩)]) :=
  (c1_issue_aggregation []
    [("a", ConfigNode.leaf ⟨some numericAdapter, none, "A", false⟩),
     ("b", ConfigNode.leaf ⟨some stringAdapter, none, "B", false⟩)]).1
    [missingIssue "A", missingIssue "B"] "mixed(arktype,zod)"
    (by
      rw [envParse, processConfig]
      simp only [handleConfigProperty, validateProperty, resolveLeaf, lookupEnv, recordVendor,
        addVendor, numericAdapter, stringAdapter, jsGet, JSValue.isUndef, List.lookup]
      norm_num
      rw [processConfig]
      simp only [handleConfigProperty, validateProperty, resolveLeaf, lookupEnv, recordVendor,
        addVendor, numericAdapter, stringAdapter, jsGet, JSValue.isUndef, List.lookup]
      norm_num
      rw [processConfig]
      simp only [List.length_cons, List.length_nil]
      norm_num
      rfl)

/-- C2: whenever `envParse` throws a `ValidationError`, its vendor
label is computed from the duplicate-free set of vendor names of every
leaf of the definition (success or failure, env or default alike, as
`configVendorList` ranges over all leaves): the sole vendor when the
set is a singleton, `"unknown"` when it is empty, and
`"mixed(<comma-joined distinct names>)"` when it has two or more
elements, each distinct vendor listed once. -/
theorem c2_vendor_label (env : Env) (config : List (String × ConfigNode))
    (is : List Issue) (label : String)
    (h : envParse env config = .error (ParseError.validation is label)) :
    (List.foldl addVendor [] (configVendorList config)).Nodup ∧
    (∀ x, x ∈ List.foldl addVendor [] (configVendorList config) ↔
      x ∈ configVendorList config) ∧
    (List.foldl addVendor [] (configVendorList config) = [] → label = "unknown") ∧
    (∀ v, List.foldl addVendor [] (configVendorList config) = [v] → label = v) ∧
    (2 ≤ (List.foldl addVendor [] (configVendorList config)).length →
      label = "mixed(" ++
        String.intercalate "," (List.foldl addVendor [] (configVendorList config)) ++ ")") := by
  obtain ⟨his, hne, hlabel⟩ := envParse_error_validation env config is label h
  subst hlabel
  refine ⟨nodup_foldl_addVendor _ List.nodup_nil, ?_, ?_, ?_, ?_⟩
  · intro x
    simpa using mem_foldl_addVendor (configVendorList config) [] x
  · intro hnil
    rw [hnil]
    rfl
  · intro v hv
    rw [hv]
    rfl
  · intro hlen
    have h0 : ¬ (List.foldl addVendor [] (configVendorList config)).length = 0 := by omega
    have h1 : ¬ (List.foldl addVendor [] (configVendorList config)).length = 1 := by omega
    simp [vendorLabel, h0, h1]

/-- C2 witness: two required-and-missing leaves with distinct vendors
(`arktype` first, `zod` second) yield the label `"mixed(arktype,zod)"`. -/
theorem c2_vendor_label_witness :
    (List.foldl addVendor [] (configVendorList
      [("port", ConfigNode.leaf ⟨some numericAdapter, none, "PORT", false⟩),
       ("nodeEnv", ConfigNode.leaf ⟨some stringAdapter, none, "NODE_ENV", false⟩)])).Nodup ∧
    (∀ x, x ∈ List.foldl addVendor [] (configVendorList
      [("port", ConfigNode.leaf ⟨some numericAdapter, none, "PORT", false⟩),
       ("nodeEnv", ConfigNode.leaf ⟨some stringAdapter, none, "NODE_ENV", false⟩)]) ↔
      x ∈ configVendorList
      [("port", ConfigNode.leaf ⟨some numericAdapter, none, "PORT", false⟩),
       ("nodeEnv", ConfigNode.leaf ⟨some stringAdapter, none, "NODE_ENV", false⟩)]) ∧
    (List.foldl addVendor [] (configVendorList
      [("port", ConfigNode.leaf ⟨some numericAdapter, none, "PORT", false⟩),
       ("nodeEnv", ConfigNode.leaf ⟨some stringAdapter, none, "NODE_ENV", false⟩)]) = [] →
      "mixed(arktype,zod)" = "unknown") ∧
    (∀ v, List.foldl addVendor [] (configVendorList
      [("port", ConfigNode.leaf ⟨some numericAdapter, none, "PORT", false⟩),
       ("nodeEnv", ConfigNode.leaf ⟨some stringAdapter, none, "NODE_ENV", false⟩)]) = [v] →
      "mixed(arktype,zod)" = v) ∧
    (2 ≤ (List.foldl addVendor [] (configVendorList
      [("port", ConfigNode.leaf ⟨some numericAdapter, none, "PORT", false⟩),
       ("nodeEnv", ConfigNode.leaf ⟨some stringAdapter, none, "NODE_ENV", false⟩)])).length →
      "mixed(arktype,zod)" = "mixed(" ++
        String.intercalate "," (List.foldl addVendor [] (configVendorList
          [("port", ConfigNode.leaf ⟨some numericAdapter, none, "PORT", false⟩),
           ("nodeEnv", ConfigNode.leaf ⟨some stringAdapter, none, "NODE_ENV", false⟩)])) ++ ")") :=
  c2_vendor_label []
    [("port", ConfigNode.leaf ⟨some numericAdapter, none, "PORT", false⟩),
     ("nodeEnv", ConfigNode.leaf ⟨some stringAdapter, none, "NODE_ENV", false⟩)]
    [missingIssue "PORT", missingIssue "NODE_ENV"] "mixed(arktype,zod)"
    (by
      rw [envParse, processConfig]
      simp only [handleConfigProperty, validateProperty, resolveLeaf, lookupEnv, recordVendor,
        addVendor, numericAdapter, stringAdapter, jsGet, JSValue.isUndef, List.lookup]
      norm_num
      rw [processConfig]
      simp only [handleConfigProperty, validateProperty, resolveLeaf, lookupEnv, recordVendor,
        addVendor, numericAdapter, stringAdapter, jsGet, JSValue.isUndef, List.lookup]
      norm_num
      rw [processConfig]
      simp only [List.length_cons, List.length_nil]
      norm_num
      rfl)

/-- C3: a leaf whose environment variable is absent and whose default
is set produces exactly its default value at its key, and the result is
the same for every `validate` member `fopt` — any function, or even a
missing one (the universally quantified `fopt` does not occur in the
conclusion) — so the adapter's `validate` is never invoked for that
leaf. -/
theorem c3_default_verbatim (key : String) (vendorOpt : Option String)
    (fopt : Option (String → ValidateOutcome)) (envName : String) (d : JSValue)
    (opt : Bool) (envVars : Env) (vendors : List String) (issues : List Issue)
    (target : List (String × JSValue))
    (hlookup : lookupEnv envVars envName = none)
    (hd : d.isUndef = false) :
    handleConfigProperty key ⟨some ⟨vendorOpt, fopt⟩, some d, envName, opt⟩
        envVars vendors issues target =
      .ok ((match vendorOpt with
            | some v => addVendor vendors v
            | none => vendors),
           issues, target ++ [(key, d)]) := by
  simp [handleConfigProperty, validateProperty, resolveLeaf, recordVendor, jsGet,
    hlookup, hd]

/-- C3 witness: with an empty environment, a leaf with default `8080`
and an adapter whose `validate` would return a `Promise` still yields
the default (and no async abort), proving `validate` is not called. -/
theorem c3_default_verbatim_witness :
    lookupEnv [] "PORT" = none ∧ (JSValue.num 8080).isUndef = false ∧
    handleConfigProperty "port"
        ⟨some ⟨some "zod", some (fun _ => ValidateOutcome.promise)⟩,
         some (JSValue.num 8080), "PORT", false⟩ [] [] [] [] =
      .ok (["zod"], [], [("port", JSValue.num 8080)]) :=
  ⟨rfl, rfl,
    by
      have h := c3_default_verbatim "port" (some "zod")
        (some (fun _ => ValidateOutcome.promise))
        "PORT" (JSValue.num 8080) false [] [] [] [] rfl rfl
      simpa [addVendor] using h⟩

/-- A sample adapter that succeeds with the value `undefined`. -/
def undefAdapter : StandardProps :=
  ⟨some "zod", some (fun _ => ValidateOutcome.ok JSValue.undef)⟩

/-- C4: for an issue-free leaf the output key is written exactly when
the produced value is defined or the property is not optional: an
optional leaf with no env var and no default leaves the output
untouched (key absent), a required leaf whose validated value is
`undefined` is written as present-but-undefined, and in general the
entry is appended iff the value is defined or the leaf is required. -/
theorem c4_key_presence (key : String) (p : ConfigProperty) (envVars : Env)
    (vendors : List String) (issues : List Issue) (target : List (String × JSValue)) :
    (lookupEnv envVars p.env = none → jsGet p.default = JSValue.undef →
      p.optional = true →
      handleConfigProperty key p envVars vendors issues target =
        .ok (recordVendor p vendors, issues, target)) ∧
    (∀ sp f raw, p.format = some sp → sp.validate = some f →
      lookupEnv envVars p.env = some raw →
      f raw = ValidateOutcome.ok JSValue.undef → p.optional = false →
      handleConfigProperty key p envVars vendors issues target =
        .ok (recordVendor p vendors, issues, target ++ [(key, JSValue.undef)])) ∧
    (∀ v, resolveLeaf p envVars = .ok ([], v) →
      handleConfigProperty key p envVars vendors issues target =
        .ok (recordVendor p vendors, issues,
          if !v.isUndef || !p.optional then target ++ [(key, v)] else target)) := by
  refine ⟨?_, ?_, ?_⟩
  · intro hlookup hd hopt
    simp [handleConfigProperty, validateProperty, resolveLeaf, hlookup, hd, hopt,
      JSValue.isUndef]
  · intro sp f raw hfmt hvalidate hlookup hval hopt
    simp [handleConfigProperty, validateProperty, resolveLeaf, hlookup, hfmt, hvalidate,
      hval, hopt, JSValue.isUndef]
  · intro v hres
    by_cases hw : (!v.isUndef || !p.optional) = true
    · simp [handleConfigProperty, validateProperty, hres, hw]
    · simp only [handleConfigProperty, validateProperty, hres]
      simp only [Bool.not_eq_true] at hw
      simp [hw]

/-- C4 witness: an optional absent leaf is omitted entirely while a
required leaf whose adapter validates to `undefined` is written
present-but-undefined. -/
theorem c4_key_presence_witness :
    handleConfigProperty "opt"
        ⟨some stringAdapter, none, "MISSING", true⟩ [] [] [] [] =
      .ok (["zod"], [], []) ∧
    handleConfigProperty "req"
        ⟨some undefAdapter, none, "U", false⟩ [("U", "x")] [] [] [] =
      .ok (["zod"], [], [("req", JSValue.undef)]) := by
  constructor
  · have h := (c4_key_presence "opt" ⟨some stringAdapter, none, "MISSING", true⟩
      [] [] [] []).1 rfl rfl rfl
    simpa [recordVendor, stringAdapter, addVendor] using h
  · have h := (c4_key_presence "req" ⟨some undefAdapter, none, "U", false⟩
      [("U", "x")] [] [] []).2.1 undefAdapter
      (fun _ => ValidateOutcome.ok JSValue.undef) "x" rfl rfl rfl rfl rfl
    simpa [recordVendor, undefAdapter, addVendor] using h

/-- C5: a leaf whose env var is present and whose adapter reports a
non-empty issues array appends each reported issue to the call-wide
list with the env-var name prepended to its path (`["field"]` becomes
`[ENVVAR, "field"]`, a missing path becomes `[ENVVAR]`) and its message
prefixed with `"<ENVVAR>: "`, and contributes no value to the output
(`target` unchanged). -/
theorem c5_issue_scoping (key : String) (p : ConfigProperty) (sp : StandardProps)
    (f : String → ValidateOutcome)
    (raw : String) (rawIssues : List Issue) (envVars : Env) (vendors : List String)
    (issues : List Issue) (target : List (String × JSValue))
    (hfmt : p.format = some sp) (hvalidate : sp.validate = some f)
    (hlookup : lookupEnv envVars p.env = some raw)
    (hval : f raw = ValidateOutcome.failed rawIssues)
    (hne : rawIssues ≠ []) :
    handleConfigProperty key p envVars vendors issues target =
      .ok (recordVendor p vendors,
           issues ++ rawIssues.map (fun issue =>
             ⟨p.env ++ ": " ++ issue.message,
              some (match issue.path with
                    | some pa => p.env :: pa
                    | none => [p.env])⟩),
           target) := by
  have hlen : 0 < (rawIssues.map (scopeIssue p.env)).length := by
    simpa [List.length_pos] using hne
  simp only [handleConfigProperty, validateProperty, resolveLeaf, hlookup, hfmt,
    hvalidate, hval]
  simp only [if_pos hlen]
  rfl

/-- C5 witness: an adapter reporting two issues (one with a nested
path, one with none) has both issues rescoped under `"PORT"`. -/
theorem c5_issue_scoping_witness :
    handleConfigProperty "port"
        ⟨some twoIssueAdapter, none, "PORT", false⟩ [("PORT", "x")] [] [] [] =
      .ok (["valibot"],
           [⟨"PORT: bad1", some ["PORT"]⟩, ⟨"PORT: bad2", some ["PORT", "field"]⟩],
           []) := by
  have h := c5_issue_scoping "port" ⟨some twoIssueAdapter, none, "PORT", false⟩
    twoIssueAdapter
    (fun _ => ValidateOutcome.failed [⟨"bad1", none⟩, ⟨"bad2", some ["field"]⟩])
    "x" [⟨"bad1", none⟩, ⟨"bad2", some ["field"]⟩]
    [("PORT", "x")] [] [] [] rfl rfl rfl rfl (by simp)
  simpa [recordVendor, twoIssueAdapter, addVendor] using h

/-- C6: when a leaf whose `validate` returns a `Promise` is reached
(the leaves before it may fail validation freely, they must only not
crash the call with the `TypeError` of a missing `validate` member),
the whole `envParse` call fails with the distinct
`AsyncValidationError` fault — which carries no issue list — whatever
else the definition contains before or after that leaf (in particular
even if earlier leaves already recorded issues, and without visiting
later leaves). -/
theorem c6_async_aborts (envVars : Env) (p : ConfigProperty) (sp : StandardProps)
    (f : String → ValidateOutcome)
    (raw : String) (pre post : List (String × ConfigNode)) (key : String)
    (hfmt : p.format = some sp) (hvalidate : sp.validate = some f)
    (hlookup : lookupEnv envVars p.env = some raw)
    (hval : f raw = ValidateOutcome.promise)
    (hpre : processConfig pre envVars [] [] [] ≠ .error LeafFault.typeError) :
    envParse envVars (pre ++ (key, ConfigNode.leaf p) :: post) =
      .error ParseError.asyncValidation := by
  have hres : resolveLeaf p envVars = .error LeafFault.async := by
    simp [resolveLeaf, hlookup, hfmt, hvalidate, hval]
  unfold envParse
  rw [processConfig_append]
  cases hp : processConfig pre envVars [] [] [] with
  | error e =>
    cases e with
    | async => simp
    | typeError => exact absurd hp hpre
  | ok r =>
    obtain ⟨v, i, t⟩ := r
    have hstep : processConfig ((key, ConfigNode.leaf p) :: post) envVars v i t =
        .error LeafFault.async := by
      rw [processConfig]
      rw [(handleConfigProperty_error key p envVars v i t LeafFault.async).mpr hres]
    simp [hstep]

/-- C6 witness: a required-and-missing leaf records an issue, yet the
following async-validating leaf makes the call abort with the
async fault, not with a `ValidationError`. -/
theorem c6_async_aborts_witness :
    envParse [("ASYNC", "x")]
        ([("bad", ConfigNode.leaf ⟨some numericAdapter, none, "MISSING", false⟩)] ++
         ("a", ConfigNode.leaf ⟨some asyncAdapter, none, "ASYNC", false⟩) :: []) =
      .error ParseError.asyncValidation :=
  c6_async_aborts [("ASYNC", "x")] ⟨some asyncAdapter, none, "ASYNC", false⟩
    asyncAdapter (fun _ => ValidateOutcome.promise) "x"
    [("bad", ConfigNode.leaf ⟨some numericAdapter, none, "MISSING", false⟩)] [] "a"
    rfl rfl rfl rfl
    (by
      have hval : processConfig
          [("bad", ConfigNode.leaf ⟨some numericAdapter, none, "MISSING", false⟩)]
          [("ASYNC", "x")] [] [] [] =
          .ok (["arktype"], [missingIssue "MISSING"], []) := by
        simp [processConfig, handleConfigProperty, validateProperty, resolveLeaf,
          lookupEnv, List.lookup, recordVendor, addVendor, numericAdapter, jsGet,
          JSValue.isUndef]
      simp [hval])

/-- C7 counterexample: an adapter exposing a `~standard` descriptor
without a `validate` function does not get a non-compliance issue:
line 143's `standardProps?.validate(envValue)` guards only
`standardProps`, so the call crashes with an uncaught `TypeError` and
the traversal does not continue (the second leaf below is never
reached and no `ValidationError` is thrown). -/
theorem c7_counterexample :
    envParse [("X", "v"), ("P", "q")]
        [("x", ConfigNode.leaf ⟨some ⟨some "broken", none⟩, none, "X", false⟩),
         ("p", ConfigNode.leaf ⟨some stringAdapter, none, "P", false⟩)] =
      .error ParseError.typeError := by
  rw [envParse, processConfig]
  simp only [handleConfigProperty, validateProperty, resolveLeaf, lookupEnv,
    recordVendor, addVendor, jsGet, JSValue.isUndef, List.lookup]
  norm_num

/-- C7 (amended): a leaf whose env var is present and whose adapter
exposes no `~standard` capability descriptor at all (so that
`standardProps?.validate(envValue)` is `undefined`) records exactly one
issue saying the validator is not compliant, with path `[env-name]`,
and the walk continues with the remaining definition instead of
crashing; a leaf whose adapter exposes a `~standard` descriptor that
lacks a `validate` function instead crashes the whole call with an
uncaught `TypeError` (no issue recorded, no continued traversal). -/
theorem c7_noncompliant_adapter (key : String) (p : ConfigProperty) (raw : String)
    (rest : List (String × ConfigNode)) (envVars : Env) (vendors : List String)
    (issues : List Issue) (target : List (String × JSValue)) :
    (p.format = none → lookupEnv envVars p.env = some raw →
      processConfig ((key, ConfigNode.leaf p) :: rest) envVars vendors issues target =
        processConfig rest envVars vendors
          (issues ++ [⟨"Validator for " ++ p.env ++ " is not Standard Schema compliant",
                       some [p.env]⟩])
          target) ∧
    (∀ sp, p.format = some sp → sp.validate = none →
      lookupEnv envVars p.env = some raw →
      processConfig ((key, ConfigNode.leaf p) :: rest) envVars vendors issues target =
        .error LeafFault.typeError) := by
  constructor
  · intro hfmt hlookup
    rw [processConfig]
    have hh : handleConfigProperty key p envVars vendors issues target =
        .ok (vendors, issues ++ [nonCompliantIssue p.env], target) := by
      simp [handleConfigProperty, validateProperty, resolveLeaf, recordVendor, hfmt,
        hlookup]
    rw [hh]
    rfl
  · intro sp hfmt hvalidate hlookup
    have hres : resolveLeaf p envVars = .error LeafFault.typeError := by
      simp [resolveLeaf, hlookup, hfmt, hvalidate]
    rw [processConfig]
    rw [(handleConfigProperty_error key p envVars vendors issues target
      LeafFault.typeError).mpr hres]

/-- C7 witness: an adapter with no `~standard` descriptor contributes
one non-compliance issue for `"X"` and the walk proceeds to the next
leaf, while an adapter whose descriptor lacks `validate` crashes the
walk with the `TypeError` fault. -/
theorem c7_noncompliant_adapter_witness :
    (processConfig
        [("x", ConfigNode.leaf ⟨none, none, "X", false⟩),
         ("p", ConfigNode.leaf ⟨some stringAdapter, none, "P", false⟩)]
        [("X", "v"), ("P", "q")] [] [] [] =
      processConfig [("p", ConfigNode.leaf ⟨some stringAdapter, none, "P", false⟩)]
        [("X", "v"), ("P", "q")] []
        [⟨"Validator for " ++ "X" ++ " is not Standard Schema compliant", some ["X"]⟩]
        []) ∧
    (processConfig
        [("y", ConfigNode.leaf ⟨some ⟨some "broken", none⟩, none, "Y", false⟩)]
        [("Y", "v")] [] [] [] = .error LeafFault.typeError) :=
  ⟨(c7_noncompliant_adapter "x" ⟨none, none, "X", false⟩ "v"
      [("p", ConfigNode.leaf ⟨some stringAdapter, none, "P", false⟩)]
      [("X", "v"), ("P", "q")] [] [] []).1 rfl rfl,
   (c7_noncompliant_adapter "y" ⟨some ⟨some "broken", none⟩, none, "Y", false⟩ "v"
      [] [("Y", "v")] [] [] []).2 ⟨some "broken", none⟩ rfl rfl rfl⟩

/-- C8: a leaf whose env var is present and whose adapter validates
successfully resolves to exactly the value `validate` returned (the
validated/transformed value, for an arbitrary `v` unrelated to the raw
string), and when that value is defined it is what is written at the
leaf's key. -/
theorem c8_validated_value (key : String) (p : ConfigProperty) (sp : StandardProps)
    (f : String → ValidateOutcome)
    (raw : String) (v : JSValue) (envVars : Env) (vendors : List String)
    (issues : List Issue) (target : List (String × JSValue))
    (hfmt : p.format = some sp) (hvalidate : sp.validate = some f)
    (hlookup : lookupEnv envVars p.env = some raw)
    (hval : f raw = ValidateOutcome.ok v) :
    validateProperty p envVars vendors = .ok (recordVendor p vendors, [], v) ∧
    (v.isUndef = false →
      handleConfigProperty key p envVars vendors issues target =
        .ok (recordVendor p vendors, issues, target ++ [(key, v)])) := by
  have hres : resolveLeaf p envVars = .ok ([], v) := by
    simp [resolveLeaf, hlookup, hfmt, hvalidate, hval]
  constructor
  · simp [validateProperty, hres]
  · intro hv
    simp [handleConfigProperty, validateProperty, hres, hv]

/-- C8 witness: `{PORT: "3000"}` with the numeric adapter writes the
transformed number `3000`, not the raw string `"3000"`. -/
theorem c8_validated_value_witness :
    validateProperty ⟨some numericAdapter, none, "PORT", false⟩
        [("PORT", "3000")] [] = .ok (["arktype"], [], JSValue.num 3000) ∧
    ((JSValue.num 3000).isUndef = false →
      handleConfigProperty "port" ⟨some numericAdapter, none, "PORT", false⟩
          [("PORT", "3000")] [] [] [] =
        .ok (["arktype"], [], [("port", JSValue.num 3000)])) := by
  have h := c8_validated_value "port" ⟨some numericAdapter, none, "PORT", false⟩
    numericAdapter
    (fun s =>
      if s = "3000" then ValidateOutcome.ok (JSValue.num 3000)
      else ValidateOutcome.failed [⟨"must be a numeric string", none⟩])
    "3000" (JSValue.num 3000) [("PORT", "3000")] [] [] []
    rfl rfl rfl (by simp)
  simpa [recordVendor, numericAdapter, addVendor] using h

/-- C9: whenever `envParse` succeeds, every nested definition node
contributes an object entry at its key — here stated for an arbitrary
group node at the top level: the result contains the key bound to the
object its sub-definition assembles (the empty object when every
descendant is optional and absent). -/
theorem c9_group_materialized (envVars : Env) (pre post : List (String × ConfigNode))
    (key : String) (sub : List (String × ConfigNode)) (r : JSValue)
    (h : envParse envVars (pre ++ (key, ConfigNode.group sub) :: post) = .ok r) :
    ∃ t, r = JSValue.obj t ∧
      (key, JSValue.obj (configTarget envVars sub)) ∈ t := by
  obtain ⟨hflat, hr⟩ := envParse_ok _ _ _ h
  refine ⟨configTarget envVars (pre ++ (key, ConfigNode.group sub) :: post), hr, ?_⟩
  have hstep : configTarget envVars ((key, ConfigNode.group sub) :: post) =
      (key, JSValue.obj (configTarget envVars sub)) :: configTarget envVars post := by
    rw [configTarget]
  rw [configTarget_append, hstep]
  exact List.mem_append_right _ (List.mem_cons_self _ _)

/-- C9 witness: a nested definition whose only descendant is an
optional absent leaf still materializes as an (empty) object at its
key. -/
theorem c9_group_materialized_witness :
    ∃ t, JSValue.obj [("nested", JSValue.obj [])] = JSValue.obj t ∧
      ("nested", JSValue.obj (configTarget []
        [("flag", ConfigNode.leaf ⟨some stringAdapter, none, "MISSING", true⟩)])) ∈ t :=
  c9_group_materialized [] [] [] "nested"
    [("flag", ConfigNode.leaf ⟨some stringAdapter, none, "MISSING", true⟩)]
    (JSValue.obj [("nested", JSValue.obj [])])
    (by
      have hsub : processConfig
          [("flag", ConfigNode.leaf ⟨some stringAdapter, none, "MISSING", true⟩)]
          [] [] [] [] = .ok (["zod"], [], []) := by
        rw [processConfig]
        simp only [handleConfigProperty, validateProperty, resolveLeaf, lookupEnv,
          recordVendor, addVendor, stringAdapter, jsGet, JSValue.isUndef, List.lookup]
        norm_num
        simp [processConfig]
      simp only [List.nil_append]
      rw [envParse, processConfig, hsub]
      simp [processConfig])

/-- C10: a leaf whose `default` field is explicitly present with the
value `undefined` behaves exactly as a leaf with no default at all
(`property.default !== undefined` cannot tell them apart): leaf
resolution is identical for every environment, and with the env var
absent a required leaf yields the required-and-missing issue while an
optional leaf is omitted, instead of using `undefined` as the value. -/
theorem c10_undefined_default (fmt : Option StandardProps) (envName : String)
    (envVars : Env) (vendors : List String) :
    (∀ opt, validateProperty ⟨fmt, some JSValue.undef, envName, opt⟩ envVars vendors =
      validateProperty ⟨fmt, none, envName, opt⟩ envVars vendors) ∧
    (lookupEnv envVars envName = none →
      validateProperty ⟨fmt, some JSValue.undef, envName, false⟩ envVars vendors =
        .ok (recordVendor ⟨fmt, some JSValue.undef, envName, false⟩ vendors,
             [missingIssue envName], JSValue.undef)) ∧
    (lookupEnv envVars envName = none → ∀ key issues target,
      handleConfigProperty key ⟨fmt, some JSValue.undef, envName, true⟩
          envVars vendors issues target =
        .ok (recordVendor ⟨fmt, some JSValue.undef, envName, true⟩ vendors,
             issues, target)) := by
  refine ⟨?_, ?_, ?_⟩
  · intro opt
    unfold validateProperty resolveLeaf recordVendor
    cases h : lookupEnv envVars envName <;> simp [jsGet]
  · intro hlookup
    simp [validateProperty, resolveLeaf, hlookup, jsGet, JSValue.isUndef]
  · intro hlookup key issues target
    simp [handleConfigProperty, validateProperty, resolveLeaf, hlookup, jsGet,
      JSValue.isUndef]

/-- C10 witness: with `PORT` absent, `default: undefined` on a
required leaf produces the required-and-missing issue and on an
optional leaf produces nothing. -/
theorem c10_undefined_default_witness :
    validateProperty ⟨some stringAdapter, some JSValue.undef, "PORT", false⟩ [] [] =
      .ok (["zod"], [missingIssue "PORT"], JSValue.undef) ∧
    handleConfigProperty "p" ⟨some stringAdapter, some JSValue.undef, "PORT", true⟩
        [] [] [] [] = .ok (["zod"], [], []) := by
  constructor
  · have h := (c10_undefined_default (some stringAdapter) "PORT" [] []).2.1 rfl
    simpa [recordVendor, stringAdapter, addVendor] using h
  · have h := (c10_undefined_default (some stringAdapter) "PORT" [] []).2.2 rfl "p" [] []
    simpa [recordVendor, stringAdapter, addVendor] using h
